import Mathlib

/-!
Shallow embedding of the mandrel-watcher core and proofs about its
specification claims.  The embedded components are:

* the debounce and dedup-debounce utilities (src/utils/debounce.ts),
* the GitWatcher commit extraction and stop logic (GitWatcher.ts),
* the MandrelClient retrying HTTP transport with its connection-health
  bookkeeping (MandrelClient.ts),
* the durable RetryQueue (src/core/RetryQueue.ts).

Asynchronous effects are modelled by explicit state passing: timers are
fields of a state record, each HTTP attempt consumes one entry of a list
of externally chosen attempt outcomes, and the git history is an input
list (newest first, matching the order of simple-git log output).
-/

namespace Mandrel

/-! ## Debounce and dedup-debounce (src/utils/debounce.ts) -/

/-- State held by the closure returned by debounceWithDedup: the pending
timeout (carrying the key computed for the scheduled invocation; a later
trigger replaces it) and the key of the last fired invocation.  In the
source these are the captured variables timeoutId and lastKey. -/
structure DedupState where
  timeout : Option String
  lastKey : Option String
  deriving DecidableEq, Repr

/-- One call to the trigger returned by debounceWithDedup.  If the
computed key equals lastKey the call returns at once (skip duplicate,
no timer action); otherwise any pending timeout is cleared and a new one
is set.  The returned Bool records whether a timer action (clearTimeout
or setTimeout) happened, i.e. whether the call was not dropped. -/
def dedupTrigger (s : DedupState) (key : String) : DedupState × Bool :=
  if some key = s.lastKey then (s, false)
  else ({ s with timeout := some key }, true)

/-- Timer expiry for debounceWithDedup: when a timeout is pending, the
scheduled invocation fires (lastKey is set to its key, timeoutId is
cleared) and the fired key is returned; otherwise nothing happens. -/
def dedupExpire (s : DedupState) : DedupState × Option String :=
  match s.timeout with
  | some k => ({ timeout := none, lastKey := some k }, some k)
  | none => (s, none)

/-! ## GitWatcher runtime state for stop() (GitWatcher.ts)

The watcher owns a chokidar handle (this.watcher, null after close) and
a plain-debounce closure wrapping handleGitChange whose captured
timeoutId is not reachable from the watcher: the debounce helper in
src/utils/debounce.ts exposes no cancel operation. -/

/-- Runtime state of a GitWatcher: whether the chokidar watch handle is
open (this.watcher is not null) and whether the debounce closure around
handleGitChange has a pending timeout. -/
structure WatcherRt where
  watcherOpen : Bool
  debounceTimeout : Bool
  deriving DecidableEq, Repr

/-- GitWatcher.stop: if the watch handle is open it is closed and set to
null; nothing else is touched (in particular the debounce timeout is not
reachable from stop).  A second call finds watcher null and does
nothing. -/
def stopWatcher (s : WatcherRt) : WatcherRt :=
  if s.watcherOpen then { s with watcherOpen := false } else s

/-- A change event on .git/logs/HEAD: the debounced handler (re)arms the
debounce timeout. -/
def watcherDebounceTrigger (s : WatcherRt) : WatcherRt :=
  { s with debounceTimeout := true }

/-- Expiry of the debounce timeout: when pending, handleGitChange fires
(the Bool result) and the timeout is cleared. -/
def watcherDebounceExpire (s : WatcherRt) : WatcherRt × Bool :=
  if s.debounceTimeout then ({ s with debounceTimeout := false }, true) else (s, false)

/-! ## Commit data model (MandrelClient.ts interfaces, GitWatcher.ts) -/

inductive ChangeType
  | added
  | modified
  | deleted
  | renamed
  deriving DecidableEq, Repr

structure CommitFile where
  path : String
  lines_added : Nat
  lines_deleted : Nat
  change_type : ChangeType
  deriving DecidableEq, Repr

/-- One entry of a simple-git diffSummary: the file name and, for text
files, the insertion and deletion counts; binary summary entries carry
no counts (the source checks insertions in file and falls back to 0 and
modified). -/
structure DiffFile where
  file : String
  counts : Option (Nat × Nat)
  deriving DecidableEq, Repr

/-- One entry of simple-git log output, together with the outcome of the
diffSummary call GitWatcher.getCommitFiles would make for it: none means
diffSummary threw (root commit or merge ambiguity). -/
structure LogCommit where
  hash : String
  message : String
  author_name : String
  author_email : String
  date : String
  diff : Option (List DiffFile)
  deriving DecidableEq, Repr

structure CommitData where
  sha : String
  message : String
  author_name : String
  author_email : String
  author_date : String
  files : List CommitFile
  deriving DecidableEq, Repr

/-- GitWatcher.getCommitFiles: on a diffSummary failure the file list
degrades to empty; otherwise each diff entry is mapped to a CommitFile,
classifying added when only insertions, deleted when only deletions,
and modified otherwise (also for entries without counts). -/
def getCommitFiles (diff : Option (List DiffFile)) : List CommitFile :=
  match diff with
  | none => []
  | some fs =>
    fs.map (fun f =>
      match f.counts with
      | some (ins, del) =>
        { path := f.file, lines_added := ins, lines_deleted := del,
          change_type :=
            if 0 < ins ∧ del = 0 then ChangeType.added
            else if 0 < del ∧ ins = 0 then ChangeType.deleted
            else ChangeType.modified }
      | none =>
        { path := f.file, lines_added := 0, lines_deleted := 0,
          change_type := ChangeType.modified })

/-- The commit record GitWatcher.getNewCommits builds from one log
entry. -/
def toCommitData (c : LogCommit) : CommitData :=
  { sha := c.hash, message := c.message, author_name := c.author_name,
    author_email := c.author_email, author_date := c.date,
    files := getCommitFiles c.diff }

/-- Model of the simple-git log call in getNewCommits.  The repository
history is given newest first (the order git log prints).  With a
baseline sha the call lists the commits strictly after the baseline
(range baseline..HEAD); without one it takes the most recent 5. -/
def gitLogOf (history : List LogCommit) (last : Option String) : List LogCommit :=
  match last with
  | some sha => history.takeWhile (fun c => decide (c.hash ≠ sha))
  | none => history.take 5

/-- GitWatcher.getNewCommits.  gitResult is none when the git.log call
threw: the catch logs and the (empty) accumulated list is returned.
Otherwise every listed commit except one equal to the baseline is
converted, and the list is reversed into chronological order (oldest
first). -/
def getNewCommits (gitResult : Option (List LogCommit)) (lastCommitSha : Option String) :
    List CommitData :=
  match gitResult with
  | none => []
  | some history =>
    (((gitLogOf history lastCommitSha).filter
        (fun c => decide (some c.hash ≠ lastCommitSha))).map toCommitData).reverse

/-- GitWatcher.handleGitChange, as a function of the git result and the
current baseline: when extraction yields no commits the baseline is kept
and no callback runs; otherwise lastCommitSha is set to the sha of
element 0 of the (already reversed, oldest-first) list and the batch is
handed to onCommit. -/
def handleGitChange (gitResult : Option (List LogCommit)) (lastCommitSha : Option String) :
    Option String × List CommitData :=
  let commits := getNewCommits gitResult lastCommitSha
  match commits with
  | [] => (lastCommitSha, [])
  | c0 :: _ => (some c0.sha, commits)

/-! ## MandrelClient connection health and retrying transport -/

inductive ConnState
  | connected
  | disconnected
  | connecting
  deriving DecidableEq, Repr

/-- The mutable health fields of a MandrelClient.  The Date valued
lastSuccessfulRequest is abstracted to whether it is non-null. -/
structure ClientState where
  connectionState : ConnState
  lastSuccessfulRequest : Bool
  consecutiveFailures : Nat
  deriving DecidableEq, Repr

/-- Initial client field values: disconnected, no success yet, zero
consecutive failures. -/
def initialClientState : ClientState :=
  { connectionState := ConnState.disconnected, lastSuccessfulRequest := false,
    consecutiveFailures := 0 }

/-- MandrelClient.markSuccess. -/
def markSuccess (_s : ClientState) : ClientState :=
  { connectionState := ConnState.connected, lastSuccessfulRequest := true,
    consecutiveFailures := 0 }

/-- MandrelClient.markFailure: increment the consecutive failure count
and flip to disconnected once it reaches 3. -/
def markFailure (s : ClientState) : ClientState :=
  let n := s.consecutiveFailures + 1
  { s with consecutiveFailures := n,
           connectionState :=
             if 3 ≤ n then ConnState.disconnected else s.connectionState }

/-- A thrown JavaScript error as far as isRetryableError inspects it:
whether it is a TypeError (fetch network failure) and its message. -/
structure ErrObj where
  isTypeError : Bool
  message : String
  deriving DecidableEq, Repr

/-- message.includes(pat). -/
def containsSub (s pat : String) : Bool :=
  1 < (s.splitOn pat).length

/-- MandrelClient.isRetryableError. -/
def isRetryableError (e : ErrObj) : Bool :=
  if e.isTypeError then true
  else
    let m := e.message.toLower
    containsSub m "network" || containsSub m "timeout" || containsSub m "econnrefused" ||
      containsSub m "enotfound" || containsSub m "socket" || containsSub m "http 5"

/-- The outcome of one fetch call inside fetchWithRetry: either the
promise rejected, or a response arrived with an HTTP status, a body text
(used for error messages) and the result of parsing the body as JSON
(Except.error models response.json() throwing). -/
inductive AttemptOutcome (T : Type) where
  | fetchThrow (e : ErrObj)
  | response (status : Nat) (text : String) (body : Except ErrObj T)

/-- Return value of fetchWithRetry. -/
structure FetchResult (T : Type) where
  success : Bool
  data : Option T
  error : Option String
  deriving DecidableEq, Repr

/-- Result of processing one attempt: either the loop returns, or it
continues into the next iteration remembering the last error message. -/
inductive StepRes (T : Type) where
  | done (s : ClientState) (r : FetchResult T)
  | next (s : ClientState) (errMsg : String)

def stateOf {T : Type} : StepRes T → ClientState
  | StepRes.done s _ => s
  | StepRes.next s _ => s

/-- The catch block of fetchWithRetry: record the failure, then either
return (non-retryable error, or retry budget exhausted) or continue. -/
def catchStep (T : Type) (maxR attempt : Nat) (e : ErrObj) (s : ClientState) : StepRes T :=
  let s2 := markFailure s
  if isRetryableError e = false ∨ attempt = maxR then
    StepRes.done s2 { success := false, data := none, error := some e.message }
  else
    StepRes.next s2 e.message

/-- The body of one iteration of the fetchWithRetry loop at a given
attempt index.  On a retry (attempt positive) the state first becomes
connecting for the backoff sleep.  A response outside 2xx raises an
HTTP error, except that a 4xx marks success (the server was reached)
and returns failure at once; a parsed 2xx marks success and returns the
data; everything thrown lands in catchStep. -/
def attemptStep (T : Type) (maxR attempt : Nat) (o : AttemptOutcome T) (s : ClientState) :
    StepRes T :=
  let s1 := if 0 < attempt then { s with connectionState := ConnState.connecting } else s
  match o with
  | AttemptOutcome.fetchThrow e => catchStep T maxR attempt e s1
  | AttemptOutcome.response status text body =>
    if 200 ≤ status ∧ status ≤ 299 then
      match body with
      | Except.ok d =>
        StepRes.done (markSuccess s1) { success := true, data := some d, error := none }
      | Except.error e => catchStep T maxR attempt e s1
    else if 400 ≤ status ∧ status ≤ 499 then
      StepRes.done (markSuccess s1)
        { success := false, data := none,
          error := some ("HTTP " ++ toString status ++ ": " ++ text) }
    else
      let e : ErrObj := { isTypeError := false,
                          message := "HTTP " ++ toString status ++ ": " ++ text }
      catchStep T maxR attempt e s1

/-- The message of the fall-through return after the fetchWithRetry
loop: the remembered last error message, where a missing or empty (JS
falsy) message becomes the Unknown error text. -/
def lastErrMsg (lastErr : Option String) : String :=
  match lastErr with
  | some m => if m = "" then "Unknown error" else m
  | none => "Unknown error"

/-- The fetchWithRetry loop: one list entry per attempt, attempt index
counting up.  The empty-list case is the fall-through return after the
for loop with the remembered last error. -/
def fetchGo (T : Type) (maxR : Nat) :
    List (AttemptOutcome T) → Nat → ClientState → Option String → ClientState × FetchResult T
  | [], _, s, lastErr =>
    (s, { success := false, data := none, error := some (lastErrMsg lastErr) })
  | o :: rest, attempt, s, _ =>
    match attemptStep T maxR attempt o s with
    | StepRes.done s2 r => (s2, r)
    | StepRes.next s2 msg => fetchGo T maxR rest (attempt + 1) s2 (some msg)

/-- MandrelClient.fetchWithRetry, starting at attempt 0 with no last
error. -/
def fetchWithRetry (T : Type) (maxR : Nat) (outcomes : List (AttemptOutcome T))
    (s : ClientState) : ClientState × FetchResult T :=
  fetchGo T maxR outcomes 0 s none

/-! ## getActiveSession and pushStats response shapes -/

structure SessionObj where
  id : String
  project_id : String
  project_name : Option String
  deriving DecidableEq, Repr

structure SessionData where
  session : Option SessionObj
  deriving DecidableEq, Repr

/-- Body shape getActiveSession parses. -/
structure SessionBody where
  success : Bool
  data : Option SessionData
  deriving DecidableEq, Repr

structure ActiveSession where
  session_id : String
  project_id : String
  project_name : Option String
  deriving DecidableEq, Repr

/-- The null-or-session decision of getActiveSession on the transport
result: unless the transport succeeded, the body has success and a
session object is present, the result is null; otherwise the session
fields are repacked. -/
def sessionOfResult (r : FetchResult SessionBody) : Option ActiveSession :=
  match r.data with
  | some body =>
    if r.success = true ∧ body.success = true then
      match body.data with
      | some d =>
        match d.session with
        | some sess =>
          some { session_id := sess.id, project_id := sess.project_id,
                 project_name := sess.project_name }
        | none => none
      | none => none
    else none
  | none => none

/-- MandrelClient.getActiveSession. -/
def getActiveSession (maxR : Nat) (outcomes : List (AttemptOutcome SessionBody))
    (s : ClientState) : ClientState × Option ActiveSession :=
  let r := fetchWithRetry SessionBody maxR outcomes s
  (r.1, sessionOfResult r.2)

structure PushRespData where
  commits_created : Option Nat
  commits_skipped : Option Nat
  deriving DecidableEq, Repr

/-- Body shape pushStats parses. -/
structure PushBody where
  success : Bool
  data : Option PushRespData
  error : Option String
  deriving DecidableEq, Repr

/-- The Bool pushStats returns for a transport result: true only when
the transport succeeded and the body acknowledges success. -/
def pushOkOfResult (r : FetchResult PushBody) : Bool :=
  match r.data with
  | some body => r.success && body.success
  | none => false

/-- MandrelClient.pushStats. -/
def pushStats (maxR : Nat) (outcomes : List (AttemptOutcome PushBody)) (s : ClientState) :
    ClientState × Bool :=
  let r := fetchWithRetry PushBody maxR outcomes s
  (r.1, pushOkOfResult r.2)

/-! ## RetryQueue (src/core/RetryQueue.ts) -/

structure PushStatsPayload where
  project_id : Option String
  project_name : Option String
  session_id : Option String
  commits : List CommitData
  deriving DecidableEq, Repr

/-- A queued failed payload.  Timestamps are milliseconds since epoch
(the source stores ISO strings and compares their getTime values). -/
structure QueuedItem where
  id : String
  payload : PushStatsPayload
  attempts : Nat
  createdAt : Int
  lastAttemptAt : Option Int
  error : Option String
  deriving DecidableEq, Repr

def MAX_QUEUE_SIZE : Nat := 100

def MAX_ITEM_AGE_MS : Int := 7 * 24 * 60 * 60 * 1000

/-- The age pass of RetryQueue.cleanup: keep exactly the items whose
age stays below MAX_ITEM_AGE_MS. -/
def ageFilter (now : Int) (q : List QueuedItem) : List QueuedItem :=
  q.filter (fun item => decide (now - item.createdAt < MAX_ITEM_AGE_MS))

/-- RetryQueue.cleanup: drop items whose age reaches the maximum, then
keep only the newest MAX_QUEUE_SIZE (slice from the end). -/
def cleanup (now : Int) (q : List QueuedItem) : List QueuedItem :=
  if MAX_QUEUE_SIZE < (ageFilter now q).length then
    (ageFilter now q).drop ((ageFilter now q).length - MAX_QUEUE_SIZE)
  else ageFilter now q

/-- The item RetryQueue.enqueue builds: first attempt, both timestamps
now. -/
def mkQueuedItem (id : String) (payload : PushStatsPayload) (now : Int)
    (err : Option String) : QueuedItem :=
  { id := id, payload := payload, attempts := 1, createdAt := now,
    lastAttemptAt := some now, error := err }

/-- RetryQueue.enqueue on the queue list: append the new item, then run
cleanup (persistence is modelled separately by saveQueue). -/
def enqueueQ (q : List QueuedItem) (id : String) (payload : PushStatsPayload) (now : Int)
    (err : Option String) : List QueuedItem :=
  cleanup now (q ++ [mkQueuedItem id payload now err])

/-- Sequential enqueue of a batch of (id, payload) pairs at one time. -/
def enqueueAll (now : Int) (q0 : List QueuedItem) (xs : List (String × PushStatsPayload)) :
    List QueuedItem :=
  xs.foldl (fun q x => enqueueQ q x.1 x.2 now none) q0

/-- The per-item mutation of RetryQueue.markAttempt: attempts is
incremented, lastAttemptAt stamped, the error recorded. -/
def markAttemptItem (i : QueuedItem) (now : Int) (err : Option String) : QueuedItem :=
  { i with attempts := i.attempts + 1, lastAttemptAt := some now, error := err }

/-- RetryQueue.markAttempt: find the first item with the given id and
bump its attempts, stamping lastAttemptAt and the error; no change when
the id is absent. -/
def markAttemptL (q : List QueuedItem) (id : String) (now : Int) (err : Option String) :
    List QueuedItem :=
  match q with
  | [] => []
  | i :: rest =>
    if i.id = id then markAttemptItem i now err :: rest
    else i :: markAttemptL rest id now err

/-- RetryQueue.remove: filter out every item with the given id. -/
def removeQ (q : List QueuedItem) (id : String) : List QueuedItem :=
  q.filter (fun i => decide (i.id ≠ id))

/-- Result of one pushFn call inside processQueue: the promise resolved
to a Bool, or it rejected with a message. -/
inductive PushResult where
  | ok (b : Bool)
  | raise (msg : String)
  deriving DecidableEq, Repr

/-- The loop of processQueue over the snapshot: on a true push the item
is removed from the live queue and the count grows; on a false push or a
rejection the failure is recorded on that item and the loop breaks. -/
def processGo (pushFn : PushStatsPayload → PushResult) (now : Int) :
    List QueuedItem → List QueuedItem → Nat → List QueuedItem × Nat
  | [], q, cnt => (q, cnt)
  | item :: rest, q, cnt =>
    match pushFn item.payload with
    | PushResult.ok true => processGo pushFn now rest (removeQ q item.id) (cnt + 1)
    | PushResult.ok false => (markAttemptL q item.id now (some "Push returned false"), cnt)
    | PushResult.raise msg => (markAttemptL q item.id now (some msg), cnt)

/-- The queue object state: the item list and the single-flight
processing flag. -/
structure QueueState where
  queue : List QueuedItem
  processing : Bool
  deriving DecidableEq, Repr

/-- RetryQueue.processQueue: a no-op returning 0 when already processing
or empty; otherwise walk a snapshot of the queue oldest first and return
the success count, with the processing flag released at the end. -/
def processQueue (pushFn : PushStatsPayload → PushResult) (now : Int) (s : QueueState) :
    QueueState × Nat :=
  if s.processing = true ∨ s.queue = [] then (s, 0)
  else
    ({ queue := (processGo pushFn now s.queue s.queue 0).1, processing := false },
      (processGo pushFn now s.queue s.queue 0).2)

/-! ## RetryQueue persistence (load and save) -/

/-- What the queue file looks like to RetryQueue.load: absent, a read or
parse failure, or parsed content (a blank file parses as the empty
list). -/
inductive LoadInput where
  | absent
  | unreadable
  | content (items : List QueuedItem)

/-- RetryQueue.load: absence keeps the freshly initialised empty queue;
a throw is caught with a warning (the Bool) and the queue resets to
empty; parsed content goes through cleanup. -/
def loadQueue (input : LoadInput) (now : Int) : List QueuedItem × Bool :=
  match input with
  | LoadInput.absent => ([], false)
  | LoadInput.unreadable => ([], true)
  | LoadInput.content items => (cleanup now items, false)

/-- RetryQueue.save: a write failure is caught and logged (the Bool);
the in-memory queue is left exactly as it was in either case. -/
def saveQueue (q : List QueuedItem) (writeOk : Bool) : List QueuedItem × Bool :=
  if writeOk then (q, false) else (q, true)

/-! ## Sample data used by witnesses and counterexamples -/

def emptyPayload : PushStatsPayload :=
  { project_id := none, project_name := none, session_id := none, commits := [] }

def payloadA : PushStatsPayload :=
  { project_id := some "a", project_name := none, session_id := none, commits := [] }

def payloadB : PushStatsPayload :=
  { project_id := some "b", project_name := none, session_id := none, commits := [] }

def itemA : QueuedItem :=
  { id := "qa", payload := payloadA, attempts := 1, createdAt := 0,
    lastAttemptAt := some 0, error := none }

def itemB : QueuedItem :=
  { id := "qb", payload := payloadB, attempts := 2, createdAt := 0,
    lastAttemptAt := some 0, error := none }

/-- A push function granting success exactly to payloads tagged with
project a. -/
def pushFnW : PushStatsPayload → PushResult :=
  fun p => PushResult.ok (decide (p.project_id = some "a"))

def lcOld : LogCommit :=
  { hash := "aaa", message := "first", author_name := "alice",
    author_email := "alice@example.com", date := "2024-01-01", diff := none }

def lcMid : LogCommit :=
  { hash := "bbb", message := "second", author_name := "alice",
    author_email := "alice@example.com", date := "2024-01-02",
    diff := some [{ file := "f.txt", counts := some (3, 0) }] }

def lcNew : LogCommit :=
  { hash := "ccc", message := "third", author_name := "alice",
    author_email := "alice@example.com", date := "2024-01-03",
    diff := some [{ file := "f.txt", counts := some (0, 2) }] }

/-! # Theorems about the claims -/

/-- C1: with two commits bbb (older) and ccc (newer) created after the
baseline aaa, extraction succeeds and yields the non-empty oldest-first
list [bbb, ccc], yet handleGitChange advances lastCommitSha to bbb, the
OLDEST extracted commit, not to the newest hash ccc as the claim and the
spec require (commits[0] is taken after the list was reversed into
chronological order).  The remaining part of the claim does hold: a
failed extraction (git.log threw) and an extraction yielding no commits
both leave the baseline untouched. -/
theorem baseline_advance_bug :
    (getNewCommits (some [lcNew, lcMid, lcOld]) (some "aaa")).map CommitData.sha =
      ["bbb", "ccc"] ∧
    (handleGitChange (some [lcNew, lcMid, lcOld]) (some "aaa")).1 = some "bbb" ∧
    some "bbb" ≠ some "ccc" ∧
    handleGitChange none (some "aaa") = (some "aaa", []) ∧
    handleGitChange (some [lcOld]) (some "aaa") = (some "aaa", []) := by
  refine ⟨rfl, rfl, by decide, rfl, rfl⟩

/-- C7 counterexample: the claim says that for two consecutive triggers
with identical keys the second is dropped before any timer action.  In
the source lastKey is only assigned when the timer fires, so starting
from the fresh closure state (no pending timeout, no fired key) a
second trigger with the same key a is NOT dropped: it clears the
pending timeout and arms a new one (the timer-action flag is true). -/
theorem dedup_drop_counterexample :
    ¬ ((dedupTrigger (dedupTrigger ⟨none, none⟩ "a").1 "a").2 = false) := by
  decide

/-- C7 amended: two consecutive triggers with identical keys produce
exactly one eventual fire, but the second trigger is dropped pre-timer
only when the key equals the key of the last FIRED invocation; when no
invocation with that key has fired yet the second trigger performs a
timer reset (clear plus re-arm) instead of being dropped.  A trigger
whose key equals the last fired key is silently dropped with no timer
action. -/
theorem dedup_amended :
    (∀ (s : DedupState) (k : String), s.lastKey ≠ some k →
      (dedupTrigger (dedupTrigger s k).1 k).2 = true ∧
      (dedupExpire (dedupTrigger (dedupTrigger s k).1 k).1).2 = some k ∧
      (dedupExpire (dedupExpire (dedupTrigger (dedupTrigger s k).1 k).1).1).2 = none) ∧
    (∀ (s : DedupState) (k : String), s.lastKey = some k →
      dedupTrigger s k = (s, false)) := by
  constructor
  · intro s k h
    have hne : ¬ (some k = s.lastKey) := fun hk => h hk.symm
    simp [dedupTrigger, hne, dedupExpire]
  · intro s k h
    simp [dedupTrigger, h]

/-- C7 amended witness: from the fresh closure state, two triggers with
key a reset the timer, fire exactly once with key a, and a further
expiry fires nothing. -/
theorem dedup_amended_witness :
    (DedupState.lastKey ⟨none, none⟩ ≠ some "a") ∧
    ((dedupTrigger (dedupTrigger ⟨none, none⟩ "a").1 "a").2 = true ∧
      (dedupExpire (dedupTrigger (dedupTrigger ⟨none, none⟩ "a").1 "a").1).2 = some "a" ∧
      (dedupExpire (dedupExpire (dedupTrigger (dedupTrigger ⟨none, none⟩ "a").1 "a").1).1).2 =
        none) :=
  ⟨by decide, dedup_amended.1 ⟨none, none⟩ "a" (by decide)⟩

/-- C8 counterexample: the claim says stop() cancels any pending
debounce timer so no further debounced extraction fires.  With the
watch handle open and a debounce timeout pending, stop leaves the
timeout pending and the subsequent expiry still fires handleGitChange:
the debounce helper exposes no cancel operation and stop only closes
the chokidar handle. -/
theorem stop_cancel_counterexample :
    ¬ ((stopWatcher ⟨true, true⟩).debounceTimeout = false) ∧
    (watcherDebounceExpire (stopWatcher ⟨true, true⟩)).2 = true := by
  decide

/-- C8 amended: stop() releases the watch handle and calling it a second
time is a no-op, but it does not touch the debounce timeout, so a
pending debounced extraction still fires after stop returns. -/
theorem stop_amended :
    ∀ s : WatcherRt,
      (stopWatcher s).watcherOpen = false ∧
      stopWatcher (stopWatcher s) = stopWatcher s ∧
      (stopWatcher s).debounceTimeout = s.debounceTimeout := by
  intro s
  cases s with
  | mk w d => cases w <;> cases d <;> decide

/-- C9 counterexample: the claim says that when the queue file is
unwritable the queue falls back to an empty in-memory state.  In the
source the catch in save only logs; the in-memory queue keeps its
items, so after a failed write of a one-item queue the queue is not
empty. -/
theorem save_fallback_counterexample :
    ¬ ((saveQueue [itemA] false).1 = []) := by
  decide

/-- C9 amended: an absent queue file loads as the empty queue with no
warning; unreadable or malformed content loads as the empty queue with
a warning and no crash; a failed write is logged and the queue keeps
its current in-memory contents (it is not reset to empty and the daemon
is not aborted), and a successful write also leaves it unchanged. -/
theorem queue_persistence_amended :
    (∀ now : Int, loadQueue LoadInput.absent now = ([], false)) ∧
    (∀ now : Int, loadQueue LoadInput.unreadable now = ([], true)) ∧
    (∀ q : List QueuedItem, saveQueue q false = (q, true)) ∧
    (∀ q : List QueuedItem, saveQueue q true = (q, false)) := by
  refine ⟨fun now => rfl, fun now => rfl, fun q => rfl, fun q => rfl⟩

/-! ## Commit ordering (C2) -/

/-- takeWhile over a list whose leading block satisfies the predicate
and whose next element falsifies it returns exactly the leading
block. -/
theorem takeWhile_stops {α : Type} (p : α → Bool) (b : α) (older : List α) :
    ∀ newc : List α, (∀ c ∈ newc, p c = true) → p b = false →
      (newc ++ b :: older).takeWhile p = newc := by
  intro newc
  induction newc with
  | nil =>
    intro _ hb
    simp [List.takeWhile_cons, hb]
  | cons c rest ih =>
    intro h hb
    have hc : p c = true := h c (by simp)
    simp [List.takeWhile_cons, hc, ih (fun x hx => h x (by simp [hx])) hb]

/-- C2: commits created after the baseline are returned oldest first
(the reverse of the newest-first git log listing, i.e. creation order),
and no returned commit ever carries the sha of the current baseline.
Here newc is the newest-first list of commits created after baseline b,
none of which reuses the baseline hash. -/
theorem extract_order_spec :
    (∀ (newc older : List LogCommit) (b : LogCommit),
      (∀ c ∈ newc, c.hash ≠ b.hash) →
      getNewCommits (some (newc ++ b :: older)) (some b.hash) =
        (newc.map toCommitData).reverse) ∧
    (∀ (g : Option (List LogCommit)) (last : Option String) (cd : CommitData),
      cd ∈ getNewCommits g last → ¬ (some cd.sha = last)) := by
  constructor
  · intro newc older b h
    have ht : (newc ++ b :: older).takeWhile (fun c => decide (c.hash ≠ b.hash)) = newc :=
      takeWhile_stops (fun c => decide (c.hash ≠ b.hash)) b older newc
        (fun c hc => decide_eq_true (h c hc)) (by simp)
    have hf : newc.filter (fun c => decide (some c.hash ≠ some b.hash)) = newc := by
      apply List.filter_eq_self.mpr
      intro a ha
      simpa using h a ha
    simp only [getNewCommits, gitLogOf]
    rw [ht, hf]
  · intro g last cd hmem
    cases g with
    | none => simp [getNewCommits] at hmem
    | some history =>
      simp only [getNewCommits, List.mem_reverse, List.mem_map] at hmem
      obtain ⟨c, hc, hcd⟩ := hmem
      have hp := (List.mem_filter.mp hc).2
      have : some c.hash ≠ last := of_decide_eq_true hp
      rw [← hcd]
      simpa [toCommitData] using this

/-- C2 witness: one commit bbb after baseline aaa is extracted as the
singleton chronological list, and its sha differs from the baseline. -/
theorem extract_order_spec_witness :
    (∀ c ∈ [lcMid], c.hash ≠ lcOld.hash) ∧
    getNewCommits (some ([lcMid] ++ lcOld :: [])) (some lcOld.hash) =
      ([lcMid].map toCommitData).reverse ∧
    toCommitData lcMid ∈ getNewCommits (some [lcMid, lcOld]) (some "aaa") ∧
    ¬ (some (toCommitData lcMid).sha = some "aaa") :=
  ⟨by decide, extract_order_spec.1 [lcMid] [] lcOld (by decide), by decide,
    extract_order_spec.2 (some [lcMid, lcOld]) (some "aaa") (toCommitData lcMid) (by decide)⟩

/-! ## Queue bounding (C6) -/

/-- Dropping a prefix before appending and then dropping again is one
combined drop on the concatenation. -/
theorem drop_append_drop {α : Type} (A B : List α) (d e : Nat) (h : d ≤ A.length) :
    (A.drop d ++ B).drop e = (A ++ B).drop (d + e) := by
  rw [List.drop_append_eq_append_drop, List.drop_append_eq_append_drop, List.drop_drop]
  congr 1
  congr 1
  rw [List.length_drop]
  omega

/-- cleanup is the age filter followed by one drop from the front. -/
theorem cleanup_eq_drop (now : Int) (q : List QueuedItem) :
    cleanup now q = (ageFilter now q).drop ((ageFilter now q).length - MAX_QUEUE_SIZE) := by
  unfold cleanup
  split
  · rfl
  · rename_i hle
    rw [Nat.sub_eq_zero_of_le (Nat.le_of_not_lt hle), List.drop_zero]

/-- On a list of items all created right now the age filter keeps
everything. -/
theorem ageFilter_fresh (now : Int) (q : List QueuedItem)
    (h : ∀ i ∈ q, i.createdAt = now) : ageFilter now q = q := by
  apply List.filter_eq_self.mpr
  intro a ha
  rw [h a ha]
  simp [MAX_ITEM_AGE_MS]

/-- Enqueueing a batch of items at one instant starting from the empty
queue (more generally: from any fresh queue within the size bound)
keeps exactly the newest MAX_QUEUE_SIZE of the enqueued sequence. -/
theorem enqueueAll_fresh (now : Int) :
    ∀ (xs : List (String × PushStatsPayload)) (q0 : List QueuedItem),
      (∀ i ∈ q0, i.createdAt = now) → q0.length ≤ MAX_QUEUE_SIZE →
      enqueueAll now q0 xs =
        (q0 ++ xs.map (fun x => mkQueuedItem x.1 x.2 now none)).drop
          (q0.length + xs.length - MAX_QUEUE_SIZE) := by
  intro xs
  induction xs with
  | nil =>
    intro q0 hfresh hlen
    have h0 : q0.length - MAX_QUEUE_SIZE = 0 := by omega
    simp [enqueueAll, h0]
  | cons x rest ih =>
    intro q0 hfresh hlen
    have hstep : enqueueAll now q0 (x :: rest) =
        enqueueAll now (enqueueQ q0 x.1 x.2 now none) rest := rfl
    have hyfresh : ∀ i ∈ q0 ++ [mkQueuedItem x.1 x.2 now none], i.createdAt = now := by
      intro a ha
      rcases List.mem_append.mp ha with h | h
      · exact hfresh a h
      · have : a = mkQueuedItem x.1 x.2 now none := by simpa using h
        rw [this]
        rfl
    have hA : (q0 ++ [mkQueuedItem x.1 x.2 now none]).length = q0.length + 1 := by
      simp
    have henq : enqueueQ q0 x.1 x.2 now none =
        (q0 ++ [mkQueuedItem x.1 x.2 now none]).drop (q0.length + 1 - MAX_QUEUE_SIZE) := by
      rw [enqueueQ, cleanup_eq_drop, ageFilter_fresh now _ hyfresh, hA]
    have hfresh2 : ∀ i ∈ enqueueQ q0 x.1 x.2 now none, i.createdAt = now := by
      intro a ha
      rw [henq] at ha
      exact hyfresh a (List.drop_subset _ _ ha)
    have hlen2 : (enqueueQ q0 x.1 x.2 now none).length ≤ MAX_QUEUE_SIZE := by
      rw [henq, List.length_drop, hA]
      omega
    rw [hstep, ih (enqueueQ q0 x.1 x.2 now none) hfresh2 hlen2, henq, List.length_drop, hA,
      drop_append_drop _ _ _ _ (by rw [hA]; omega), List.append_assoc]
    congr 1
    simp only [List.length_cons, List.length_map]
    omega

/-- C6: cleanup bounds the queue to MAX_QUEUE_SIZE items, keeps no item
whose age reaches the maximum, and keeps a suffix (the newest entries)
of the age-filtered queue; the operations that run cleanup (enqueue,
and load of parsed content — absent or unreadable files load empty)
inherit the size bound; and enqueueing a batch from empty retains
exactly the newest MAX_QUEUE_SIZE of it, so MAX_QUEUE_SIZE + k
enqueues keep exactly the newest MAX_QUEUE_SIZE. -/
theorem queue_bound_spec :
    (∀ (now : Int) (q : List QueuedItem), (cleanup now q).length ≤ MAX_QUEUE_SIZE) ∧
    (∀ (now : Int) (q : List QueuedItem) (i : QueuedItem),
      i ∈ cleanup now q → now - i.createdAt < MAX_ITEM_AGE_MS) ∧
    (∀ (now : Int) (q : List QueuedItem), (cleanup now q).IsSuffix (ageFilter now q)) ∧
    (∀ (now : Int) (q : List QueuedItem) (idStr : String) (p : PushStatsPayload)
      (err : Option String), (enqueueQ q idStr p now err).length ≤ MAX_QUEUE_SIZE) ∧
    (∀ (input : LoadInput) (now : Int), (loadQueue input now).1.length ≤ MAX_QUEUE_SIZE) ∧
    (∀ (now : Int) (xs : List (String × PushStatsPayload)),
      enqueueAll now [] xs =
        (xs.map (fun x => mkQueuedItem x.1 x.2 now none)).drop
          (xs.length - MAX_QUEUE_SIZE)) := by
  have hlen : ∀ (now : Int) (q : List QueuedItem),
      (cleanup now q).length ≤ MAX_QUEUE_SIZE := by
    intro now q
    rw [cleanup_eq_drop, List.length_drop]
    omega
  refine ⟨hlen, ?_, ?_, ?_, ?_, ?_⟩
  · intro now q i hi
    rw [cleanup_eq_drop] at hi
    have hm := List.drop_subset _ _ hi
    have hp := (List.mem_filter.mp hm).2
    exact of_decide_eq_true hp
  · intro now q
    rw [cleanup_eq_drop]
    exact List.drop_suffix _ _
  · intro now q idStr p err
    exact hlen now _
  · intro input now
    cases input with
    | absent => simp [loadQueue]
    | unreadable => simp [loadQueue]
    | content items => exact hlen now items
  · intro now xs
    have h := enqueueAll_fresh now xs [] (by simp) (by simp)
    simpa using h

/-- C6 witness: a fresh one-item queue survives cleanup and its age is
below the maximum; enqueueing 101 identical payloads from empty keeps
exactly the newest 100 of them. -/
theorem queue_bound_spec_witness :
    (itemA ∈ cleanup 0 [itemA] ∧ (0 : Int) - itemA.createdAt < MAX_ITEM_AGE_MS) ∧
    enqueueAll 0 [] (List.replicate 101 ("r", emptyPayload)) =
      ((List.replicate 101 ("r", emptyPayload)).map
        (fun x => mkQueuedItem x.1 x.2 0 none)).drop
        ((List.replicate 101 ("r", emptyPayload)).length - MAX_QUEUE_SIZE) :=
  ⟨⟨by decide, queue_bound_spec.2.1 0 [itemA] itemA (by decide)⟩,
    queue_bound_spec.2.2.2.2.2 0 (List.replicate 101 ("r", emptyPayload))⟩

/-! ## processQueue (C3) -/

/-- markAttempt on a queue whose head carries the looked-up id updates
the head in place. -/
theorem markAttemptL_head (i : QueuedItem) (rest : List QueuedItem) (now : Int)
    (err : Option String) :
    markAttemptL (i :: rest) i.id now err = markAttemptItem i now err :: rest := by
  simp [markAttemptL]

/-- Removing the head's id from a queue with pairwise distinct ids
removes exactly the head. -/
theorem removeQ_cons_of_nodup (g : QueuedItem) (l : List QueuedItem)
    (h : ((g :: l).map QueuedItem.id).Nodup) : removeQ (g :: l) g.id = l := by
  rw [List.map_cons] at h
  have hn := List.nodup_cons.mp h
  unfold removeQ
  rw [List.filter_cons]
  have hg : decide (g.id ≠ g.id) = false := by simp
  rw [hg]
  simp only [Bool.false_eq_true, if_false]
  apply List.filter_eq_self.mpr
  intro a ha
  have hane : a.id ≠ g.id := by
    intro he
    exact hn.1 (by rw [← he]; exact List.mem_map_of_mem QueuedItem.id ha)
  simpa using hane

/-- Processing a leading block of items the push function accepts
removes each of them and accumulates one success per item. -/
theorem processGo_all_ok (pushFn : PushStatsPayload → PushResult) (now : Int) :
    ∀ (grp tail : List QueuedItem) (cnt : Nat),
      (∀ i ∈ grp, pushFn i.payload = PushResult.ok true) →
      (((grp ++ tail).map QueuedItem.id).Nodup) →
      processGo pushFn now (grp ++ tail) (grp ++ tail) cnt =
        processGo pushFn now tail tail (cnt + grp.length) := by
  intro grp
  induction grp with
  | nil =>
    intro tail cnt _ _
    simp
  | cons g grp' ih =>
    intro tail cnt hok hnd
    have hg : pushFn g.payload = PushResult.ok true := hok g (by simp)
    have hrm : removeQ (g :: (grp' ++ tail)) g.id = grp' ++ tail := by
      apply removeQ_cons_of_nodup
      rw [List.cons_append] at hnd
      exact hnd
    have hnd2 : ((grp' ++ tail).map QueuedItem.id).Nodup := by
      rw [List.cons_append, List.map_cons] at hnd
      exact (List.nodup_cons.mp hnd).2
    have hstep : processGo pushFn now ((g :: grp') ++ tail) ((g :: grp') ++ tail) cnt =
        processGo pushFn now (grp' ++ tail) (grp' ++ tail) (cnt + 1) := by
      rw [List.cons_append]
      simp only [processGo, hg, hrm]
    rw [hstep, ih tail (cnt + 1) (fun i hi => hok i (by simp [hi])) hnd2]
    congr 1
    simp only [List.length_cons]
    omega

/-- C3: processQueue returns 0 and leaves the state untouched when a
pass is in progress or the queue is empty.  Otherwise it walks the
snapshot oldest first: with a leading block grp of items the push
function accepts followed by a failing item bad (push returned false,
or it raised emsg), every item of grp is removed, bad gets attempts
incremented and the error recorded, the items after bad are untouched,
and the count of delivered items is the length of grp.  When every item
is accepted the queue drains completely and the count is the full
length. -/
theorem processQueue_spec :
    (∀ (pushFn : PushStatsPayload → PushResult) (now : Int) (s : QueueState),
      s.processing = true ∨ s.queue = [] → processQueue pushFn now s = (s, 0)) ∧
    (∀ (pushFn : PushStatsPayload → PushResult) (now : Int)
      (grp rest : List QueuedItem) (bad : QueuedItem) (emsg : String),
      (((grp ++ bad :: rest).map QueuedItem.id).Nodup) →
      (∀ i ∈ grp, pushFn i.payload = PushResult.ok true) →
      ((pushFn bad.payload = PushResult.ok false ∧ emsg = "Push returned false") ∨
        pushFn bad.payload = PushResult.raise emsg) →
      processQueue pushFn now { queue := grp ++ bad :: rest, processing := false } =
        ({ queue := markAttemptItem bad now (some emsg) :: rest, processing := false },
          grp.length)) ∧
    (∀ (pushFn : PushStatsPayload → PushResult) (now : Int) (q : List QueuedItem),
      ((q.map QueuedItem.id).Nodup) →
      (∀ i ∈ q, pushFn i.payload = PushResult.ok true) →
      processQueue pushFn now { queue := q, processing := false } =
        ({ queue := [], processing := false }, q.length)) := by
  refine ⟨?_, ?_, ?_⟩
  · intro pushFn now s h
    rcases h with h | h <;> simp [processQueue, h]
  · intro pushFn now grp rest bad emsg hnd hok hbad
    unfold processQueue
    rw [if_neg (by simp)]
    rw [processGo_all_ok pushFn now grp (bad :: rest) 0 hok hnd]
    rcases hbad with ⟨hb, he⟩ | hb
    · simp only [processGo, hb, markAttemptL_head, he, Nat.zero_add]
    · simp only [processGo, hb, markAttemptL_head, Nat.zero_add]
  · intro pushFn now q hnd hok
    cases q with
    | nil => simp [processQueue]
    | cons a l =>
      unfold processQueue
      rw [if_neg (by simp)]
      have h := processGo_all_ok pushFn now (a :: l) [] 0 hok
        (by rw [List.append_nil]; exact hnd)
      rw [List.append_nil] at h
      rw [h]
      simp [processGo]

/-- C3 witness: a two-item queue where the push function accepts the
first payload and rejects the second delivers one item, removes it,
records the failure on the second and stops; the in-progress and empty
guards are exercised as well. -/
theorem processQueue_spec_witness :
    (processQueue pushFnW 5 { queue := [itemA], processing := true } =
      ({ queue := [itemA], processing := true }, 0)) ∧
    (processQueue pushFnW 5 { queue := [itemA] ++ itemB :: [], processing := false } =
      ({ queue := markAttemptItem itemB 5 (some "Push returned false") :: [],
          processing := false }, [itemA].length)) ∧
    (processQueue pushFnW 5 { queue := [itemA], processing := false } =
      ({ queue := [], processing := false }, [itemA].length)) :=
  ⟨processQueue_spec.1 pushFnW 5 { queue := [itemA], processing := true } (Or.inl rfl),
    processQueue_spec.2.1 pushFnW 5 [itemA] [] itemB "Push returned false" (by decide)
      (by decide) (Or.inl ⟨by decide, rfl⟩),
    processQueue_spec.2.2 pushFnW 5 [itemA] (by decide) (by decide)⟩

/-! ## Delivery client health and 4xx handling (C4, C5, C10) -/

/-- The catch block always records the failure, whether it then returns
or retries. -/
theorem stateOf_catchStep (T : Type) (maxR attempt : Nat) (e : ErrObj) (s : ClientState) :
    stateOf (catchStep T maxR attempt e s) = markFailure s := by
  simp only [catchStep]
  split <;> rfl

/-- The transient connecting assignment before the backoff sleep does
not change the failure counter. -/
theorem connectingIf_counter (attempt : Nat) (s : ClientState) :
    (if 0 < attempt then { s with connectionState := ConnState.connecting }
      else s).consecutiveFailures = s.consecutiveFailures := by
  split <;> rfl

theorem markFailure_counter (s : ClientState) :
    (markFailure s).consecutiveFailures = s.consecutiveFailures + 1 := rfl

theorem markFailure_disconnected (s : ClientState) (h : 2 ≤ s.consecutiveFailures) :
    (markFailure s).connectionState = ConnState.disconnected := by
  simp only [markFailure]
  rw [if_pos (by omega)]

/-- A rejected fetch lands in the catch block: the resulting state is
markFailure of the (possibly connecting) state. -/
theorem attemptStep_fetchThrow (T : Type) (maxR attempt : Nat) (e : ErrObj) (s : ClientState) :
    stateOf (attemptStep T maxR attempt (AttemptOutcome.fetchThrow e) s) =
      markFailure (if 0 < attempt then { s with connectionState := ConnState.connecting }
        else s) := by
  simp only [attemptStep]
  exact stateOf_catchStep T maxR attempt e _

/-- A 5xx response raises and lands in the catch block. -/
theorem attemptStep_5xx (T : Type) (maxR attempt status : Nat) (text : String)
    (body : Except ErrObj T) (s : ClientState) (h5 : 500 ≤ status) (h6 : status ≤ 599) :
    stateOf (attemptStep T maxR attempt (AttemptOutcome.response status text body) s) =
      markFailure (if 0 < attempt then { s with connectionState := ConnState.connecting }
        else s) := by
  simp only [attemptStep]
  rw [if_neg (by omega), if_neg (by omega)]
  exact stateOf_catchStep T maxR attempt _ _

/-- A 4xx response marks success and returns failure with the HTTP
error message at once. -/
theorem attemptStep_4xx (T : Type) (maxR attempt status : Nat) (text : String)
    (body : Except ErrObj T) (s : ClientState) (h4 : 400 ≤ status) (h5 : status ≤ 499) :
    attemptStep T maxR attempt (AttemptOutcome.response status text body) s =
      StepRes.done (markSuccess s)
        { success := false, data := none,
          error := some ("HTTP " ++ toString status ++ ": " ++ text) } := by
  simp only [attemptStep]
  rw [if_neg (by omega), if_pos (by omega)]
  rfl

/-- A parsed 2xx response marks success and returns the data. -/
theorem attemptStep_2xx_ok (T : Type) (maxR attempt status : Nat) (text : String) (d : T)
    (s : ClientState) (h1 : 200 ≤ status) (h2 : status ≤ 299) :
    attemptStep T maxR attempt (AttemptOutcome.response status text (Except.ok d)) s =
      StepRes.done (markSuccess s) { success := true, data := some d, error := none } := by
  simp only [attemptStep]
  rw [if_pos (by omega)]
  rfl

/-- C4: inside the retrying transport, every retryable failure — a
rejected fetch with a retryable error, or a 5xx response — increments
the consecutive-failure counter, and once the counter reaches 3 (two
previous failures plus this one) the connection state becomes
disconnected; every successful exchange — a 4xx response included — is
routed through markSuccess, resetting the counter to 0 and setting the
state to connected. -/
theorem client_health_spec :
    (∀ (T : Type) (maxR attempt : Nat) (s : ClientState) (e : ErrObj),
      isRetryableError e = true →
      (stateOf (attemptStep T maxR attempt (AttemptOutcome.fetchThrow e) s)).consecutiveFailures =
        s.consecutiveFailures + 1 ∧
      (2 ≤ s.consecutiveFailures →
        (stateOf (attemptStep T maxR attempt
          (AttemptOutcome.fetchThrow e) s)).connectionState = ConnState.disconnected)) ∧
    (∀ (T : Type) (maxR attempt status : Nat) (text : String) (body : Except ErrObj T)
      (s : ClientState), 500 ≤ status → status ≤ 599 →
      (stateOf (attemptStep T maxR attempt
        (AttemptOutcome.response status text body) s)).consecutiveFailures =
        s.consecutiveFailures + 1 ∧
      (2 ≤ s.consecutiveFailures →
        (stateOf (attemptStep T maxR attempt
          (AttemptOutcome.response status text body) s)).connectionState =
          ConnState.disconnected)) ∧
    (∀ (T : Type) (maxR attempt status : Nat) (text : String) (body : Except ErrObj T)
      (s : ClientState), 400 ≤ status → status ≤ 499 →
      (stateOf (attemptStep T maxR attempt
        (AttemptOutcome.response status text body) s)).consecutiveFailures = 0 ∧
      (stateOf (attemptStep T maxR attempt
        (AttemptOutcome.response status text body) s)).connectionState =
        ConnState.connected) ∧
    (∀ (T : Type) (maxR attempt status : Nat) (text : String) (d : T) (s : ClientState),
      200 ≤ status → status ≤ 299 →
      (stateOf (attemptStep T maxR attempt
        (AttemptOutcome.response status text (Except.ok d)) s)).consecutiveFailures = 0 ∧
      (stateOf (attemptStep T maxR attempt
        (AttemptOutcome.response status text (Except.ok d)) s)).connectionState =
        ConnState.connected) := by
  refine ⟨?_, ?_, ?_, ?_⟩
  · intro T maxR attempt s e _
    rw [attemptStep_fetchThrow]
    constructor
    · rw [markFailure_counter, connectingIf_counter]
    · intro h2
      exact markFailure_disconnected _ (by rw [connectingIf_counter]; exact h2)
  · intro T maxR attempt status text body s h5 h6
    rw [attemptStep_5xx T maxR attempt status text body s h5 h6]
    constructor
    · rw [markFailure_counter, connectingIf_counter]
    · intro h2
      exact markFailure_disconnected _ (by rw [connectingIf_counter]; exact h2)
  · intro T maxR attempt status text body s h4 h5
    rw [attemptStep_4xx T maxR attempt status text body s h4 h5]
    exact ⟨rfl, rfl⟩
  · intro T maxR attempt status text d s h1 h2
    rw [attemptStep_2xx_ok T maxR attempt status text d s h1 h2]
    exact ⟨rfl, rfl⟩

def eNet : ErrObj := { isTypeError := true, message := "fetch failed" }

def eJson : ErrObj := { isTypeError := false, message := "Unexpected token" }

def sbOk : SessionBody :=
  { success := true,
    data := some { session := some { id := "s1", project_id := "p1", project_name := none } } }

/-- A client state that has already seen two consecutive failures. -/
def sTwoFails : ClientState :=
  { connectionState := ConnState.connected, lastSuccessfulRequest := false,
    consecutiveFailures := 2 }

/-- C4 witness: after two consecutive failures, a retryable network
error raises the counter to 3; a 503 on a retry flips the state to
disconnected; a 404 and a parsed 200 each reset the counter and restore
connected. -/
theorem client_health_spec_witness :
    (isRetryableError eNet = true ∧
      (stateOf (attemptStep SessionBody 5 0
        (AttemptOutcome.fetchThrow eNet) sTwoFails)).consecutiveFailures = 3) ∧
    (stateOf (attemptStep SessionBody 5 1
      (AttemptOutcome.response 503 "overload" (Except.ok sbOk)) sTwoFails)).connectionState =
      ConnState.disconnected ∧
    (stateOf (attemptStep SessionBody 5 0
      (AttemptOutcome.response 404 "missing" (Except.error eJson)) sTwoFails)).consecutiveFailures =
      0 ∧
    (stateOf (attemptStep SessionBody 5 0
      (AttemptOutcome.response 200 "ok" (Except.ok sbOk)) sTwoFails)).connectionState =
      ConnState.connected :=
  ⟨⟨by decide, (client_health_spec.1 SessionBody 5 0 sTwoFails eNet (by decide)).1⟩,
    (client_health_spec.2.1 SessionBody 5 1 503 "overload" (Except.ok sbOk) sTwoFails
      (by decide) (by decide)).2 (by decide),
    (client_health_spec.2.2.1 SessionBody 5 0 404 "missing" (Except.error eJson) sTwoFails
      (by decide) (by decide)).1,
    (client_health_spec.2.2.2 SessionBody 5 0 200 "ok" sbOk sTwoFails
      (by decide) (by decide)).2⟩

/-- C5: a 4xx response makes the retrying transport return failure at
once with the HTTP status and server text as the message: the result is
the same for every continuation of the outcome list (no retry is
attempted, whatever attempt index the loop is at) and the connection is
marked successful; consequently pushStats returns false and
getActiveSession returns null, each leaving the client connected. -/
theorem client_4xx_spec :
    (∀ (T : Type) (maxR attempt : Nat) (s : ClientState) (lastErr : Option String)
      (status : Nat) (text : String) (body : Except ErrObj T)
      (rest : List (AttemptOutcome T)),
      400 ≤ status → status ≤ 499 →
      fetchGo T maxR (AttemptOutcome.response status text body :: rest) attempt s lastErr =
        (markSuccess s,
          { success := false, data := none,
            error := some ("HTTP " ++ toString status ++ ": " ++ text) })) ∧
    (∀ (maxR status : Nat) (text : String) (body : Except ErrObj PushBody)
      (rest : List (AttemptOutcome PushBody)) (s : ClientState),
      400 ≤ status → status ≤ 499 →
      pushStats maxR (AttemptOutcome.response status text body :: rest) s =
        (markSuccess s, false)) ∧
    (∀ (maxR status : Nat) (text : String) (body : Except ErrObj SessionBody)
      (rest : List (AttemptOutcome SessionBody)) (s : ClientState),
      400 ≤ status → status ≤ 499 →
      getActiveSession maxR (AttemptOutcome.response status text body :: rest) s =
        (markSuccess s, none)) := by
  have hmain : ∀ (T : Type) (maxR attempt : Nat) (s : ClientState) (lastErr : Option String)
      (status : Nat) (text : String) (body : Except ErrObj T)
      (rest : List (AttemptOutcome T)),
      400 ≤ status → status ≤ 499 →
      fetchGo T maxR (AttemptOutcome.response status text body :: rest) attempt s lastErr =
        (markSuccess s,
          { success := false, data := none,
            error := some ("HTTP " ++ toString status ++ ": " ++ text) }) := by
    intro T maxR attempt s lastErr status text body rest h4 h5
    have h := attemptStep_4xx T maxR attempt status text body s h4 h5
    simp only [fetchGo, h]
  refine ⟨hmain, ?_, ?_⟩
  · intro maxR status text body rest s h4 h5
    have h := hmain PushBody maxR 0 s none status text body rest h4 h5
    simp only [pushStats, fetchWithRetry, h, pushOkOfResult]
  · intro maxR status text body rest s h4 h5
    have h := hmain SessionBody maxR 0 s none status text body rest h4 h5
    simp only [getActiveSession, fetchWithRetry, h, sessionOfResult]

/-- C5 witness: a single 400 response with text Bad Request makes the
transport, pushStats and getActiveSession fail immediately with the
client marked connected. -/
theorem client_4xx_spec_witness :
    (fetchGo SessionBody 5 [AttemptOutcome.response 400 "Bad Request" (Except.error eJson)] 0
      initialClientState none =
      (markSuccess initialClientState,
        { success := false, data := none,
          error := some ("HTTP " ++ toString 400 ++ ": " ++ "Bad Request") })) ∧
    (pushStats 5 [AttemptOutcome.response 400 "Bad Request" (Except.error eJson)]
      initialClientState = (markSuccess initialClientState, false)) ∧
    (getActiveSession 5 [AttemptOutcome.response 400 "Bad Request" (Except.error eJson)]
      initialClientState = (markSuccess initialClientState, none)) :=
  ⟨client_4xx_spec.1 SessionBody 5 0 initialClientState none 400 "Bad Request"
      (Except.error eJson) [] (by decide) (by decide),
    client_4xx_spec.2.1 5 400 "Bad Request" (Except.error eJson) [] initialClientState
      (by decide) (by decide),
    client_4xx_spec.2.2 5 400 "Bad Request" (Except.error eJson) [] initialClientState
      (by decide) (by decide)⟩

/-- Whenever the transport result misses any part of the success shape
(transport failure, missing body, body without success, body without a
session), the session decision is null. -/
theorem sessionOfResult_none (r : FetchResult SessionBody)
    (h : r.success = false ∨ r.data = none ∨
      (∃ body, r.data = some body ∧ (body.success = false ∨ body.data = none ∨
        (∃ d, body.data = some d ∧ d.session = none)))) :
    sessionOfResult r = none := by
  obtain ⟨su, da, er⟩ := r
  cases da with
  | none => rfl
  | some body =>
    simp only [sessionOfResult]
    rcases h with h | h | ⟨b, hb, hbad⟩
    · have h' : su = false := h
      rw [if_neg]
      intro hc
      rw [h'] at hc
      exact absurd hc.1 (by simp)
    · have h' : (some body : Option SessionBody) = none := h
      exact absurd h' (by simp)
    · have hb' : (some body : Option SessionBody) = some b := hb
      have hbe : body = b := by injection hb'
      subst hbe
      by_cases hc : su = true ∧ body.success = true
      · rw [if_pos hc]
        rcases hbad with h | h | ⟨d, hd, hs⟩
        · rw [h] at hc
          exact absurd hc.2 (by simp)
        · simp [h]
        · simp [hd, hs]
      · rw [if_neg hc]

/-- C10: getActiveSession (a total function here, so it cannot raise)
returns null whenever the transport reports failure — network errors,
retry exhaustion and non-2xx responses all end there — or the parsed
body lacks the success flag, the data object or the session object. -/
theorem getActiveSession_null_spec :
    ∀ (maxR : Nat) (outcomes : List (AttemptOutcome SessionBody)) (s : ClientState),
      ((fetchWithRetry SessionBody maxR outcomes s).2.success = false ∨
        (fetchWithRetry SessionBody maxR outcomes s).2.data = none ∨
        (∃ body, (fetchWithRetry SessionBody maxR outcomes s).2.data = some body ∧
          (body.success = false ∨ body.data = none ∨
            (∃ d, body.data = some d ∧ d.session = none)))) →
      (getActiveSession maxR outcomes s).2 = none := by
  intro maxR outcomes s h
  exact sessionOfResult_none _ h

/-- C10 witness: a 404 response makes the transport fail, and the
session lookup returns null. -/
theorem getActiveSession_null_spec_witness :
    (fetchWithRetry SessionBody 5
      [AttemptOutcome.response 404 "Not Found" (Except.error eJson)]
      initialClientState).2.success = false ∧
    (getActiveSession 5 [AttemptOutcome.response 404 "Not Found" (Except.error eJson)]
      initialClientState).2 = none :=
  ⟨by decide,
    getActiveSession_null_spec 5
      [AttemptOutcome.response 404 "Not Found" (Except.error eJson)]
      initialClientState (Or.inl (by decide))⟩

end Mandrel
